import Mathlib

/-!
Shallow embedding of the PPE compliance analytics pipeline of this
repository: the detection/association core of
`ppe_detection_engine.py` (`PPEDetectionEngine.detect_objects`,
`PPEDetectionEngine.process_video`) and the webcam session state of
`webcam_component.py` (`WebcamPPEDetector`).

Real-valued pixel coordinates and wall-clock times are modelled by `ℚ`.
The source compares Euclidean distances `sqrt d2 < bound`; since `sqrt`
is monotone on nonnegative inputs, every such comparison is embedded by
the exact equivalent comparison on squares
(`0 < bound ∧ d2 < bound ^ 2`), keeping all definitions executable.
-/

namespace PPE

/-- An axis-aligned bounding box `(x1, y1, x2, y2)` in pixel
coordinates, as stored under the `bbox` key of a detection dict. -/
structure Box where
  x1 : ℚ
  y1 : ℚ
  x2 : ℚ
  y2 : ℚ
  deriving DecidableEq, Repr

/-- Embeds `(bbox[0] + bbox[2]) / 2`, the x coordinate of a box centre. -/
def centerX (b : Box) : ℚ := (b.x1 + b.x2) / 2

/-- Embeds `(bbox[1] + bbox[3]) / 2`, the y coordinate of a box centre. -/
def centerY (b : Box) : ℚ := (b.y1 + b.y2) / 2

/-- Embeds `person_bbox[2] - person_bbox[0]`, the box width. -/
def boxW (b : Box) : ℚ := b.x2 - b.x1

/-- Embeds `person_bbox[3] - person_bbox[1]`, the box height. -/
def boxH (b : Box) : ℚ := b.y2 - b.y1

/-- Squared Euclidean distance between the centres of two boxes.  The
source computes `distance = (dx**2 + dy**2) ** 0.5`; we keep the
square and compare squares throughout. -/
def centerDistSq (v p : Box) : ℚ :=
  (centerX v - centerX p) ^ 2 + (centerY v - centerY p) ^ 2

/-- Python binary `max` on rationals, written as an `if` so that it
is kernel-reducible. -/
def qmax (a b : ℚ) : ℚ := if a ≤ b then b else a

/-- Embeds `max_distance = max(person_width, person_height) * 1.5`.  The source
applies NO epsilon floor to the person size. -/
def maxAssocDist (p : Box) : ℚ := qmax (boxW p) (boxH p) * (3 / 2)

/-- The guard `distance < max_distance` with `distance = sqrt d2 ≥ 0`,
embedded exactly: it holds iff `max_distance` is positive and the
squared distance is below its square. -/
def withinAssocRange (v p : Box) : Bool :=
  decide (0 < maxAssocDist p) && decide (centerDistSq v p < maxAssocDist p ^ 2)

/-- The inner association loop of `detect_objects` over
`enumerate(people_detections)`: carries the running minimum distance
(squared; `none` plays the float infinity) and the best index
(`closest_person_idx`, initially `-1`).  An update happens exactly when
`distance < min_distance and distance < max_distance`. -/
def closestLoop (v : Box) : List Box → ℕ → Option ℚ → ℤ → Option ℚ × ℤ
  | [], _, minSq, best => (minSq, best)
  | p :: ps, i, minSq, best =>
    let d2 := centerDistSq v p
    if ((match minSq with
         | none => true
         | some m => decide (d2 < m)) && withinAssocRange v p) = true then
      closestLoop v ps (i + 1) (some d2) (Int.ofNat i)
    else
      closestLoop v ps (i + 1) minSq best

/-- Computes `closest_person_idx` for one violation box `v` against the list of
person boxes (in detection order). -/
def closestPersonIdx (people : List Box) (v : Box) : ℤ :=
  (closestLoop v people 0 none (-1)).2

/-- If no person in the remaining list passes the range guard, the loop
returns its accumulator unchanged. -/
theorem closestLoop_no_qual (v : Box) (ps : List Box) :
    ∀ (i : ℕ) (m : Option ℚ) (b : ℤ),
      (∀ k (h : k < ps.length), withinAssocRange v (ps.get ⟨k, h⟩) = false) →
      closestLoop v ps i m b = (m, b) := by
  induction ps with
  | nil => intro i m b _; rfl
  | cons p ps ih =>
    intro i m b hno
    have hp : withinAssocRange v p = false := hno 0 (Nat.succ_pos _)
    have hrest : ∀ k (h : k < ps.length),
        withinAssocRange v (ps.get ⟨k, h⟩) = false := by
      intro k h
      exact hno (k + 1) (Nat.succ_lt_succ h)
    simp only [closestLoop, hp, Bool.and_false]
    exact ih (i + 1) m b hrest

/-- Shape of the loop result: either the accumulator survives
unchanged, or the result records the squared distance and (absolute)
index of some qualifying person in the remaining list. -/
theorem closestLoop_shape (v : Box) (ps : List Box) :
    ∀ (i : ℕ) (m : Option ℚ) (b : ℤ),
      closestLoop v ps i m b = (m, b) ∨
      ∃ k, ∃ h : k < ps.length,
        closestLoop v ps i m b =
          (some (centerDistSq v (ps.get ⟨k, h⟩)), Int.ofNat (i + k)) ∧
        withinAssocRange v (ps.get ⟨k, h⟩) = true := by
  induction ps with
  | nil => intro i m b; exact Or.inl rfl
  | cons p ps ih =>
    intro i m b
    by_cases hstep :
        ((match m with
          | none => true
          | some mq => decide (centerDistSq v p < mq)) && withinAssocRange v p) = true
    · have hq : withinAssocRange v p = true := (Bool.and_eq_true _ _ |>.mp hstep).2
      have hgo : closestLoop v (p :: ps) i m b =
          closestLoop v ps (i + 1) (some (centerDistSq v p)) (Int.ofNat i) := by
        simp only [closestLoop, hstep, if_true]
      rcases ih (i + 1) (some (centerDistSq v p)) (Int.ofNat i) with hsame | ⟨k, hk, heq, hqk⟩
      · refine Or.inr ⟨0, Nat.succ_pos _, ?_, hq⟩
        rw [hgo, hsame]
        simp
      · refine Or.inr ⟨k + 1, Nat.succ_lt_succ hk, ?_, hqk⟩
        rw [hgo, heq]
        have : i + 1 + k = i + (k + 1) := by omega
        rw [this]
        rfl
    · have hgo : closestLoop v (p :: ps) i m b = closestLoop v ps (i + 1) m b := by
        simp only [closestLoop]
        rw [if_neg hstep]
      rcases ih (i + 1) m b with hsame | ⟨k, hk, heq, hqk⟩
      · exact Or.inl (hgo.trans hsame)
      · refine Or.inr ⟨k + 1, Nat.succ_lt_succ hk, ?_, hqk⟩
        rw [hgo, heq]
        have : i + 1 + k = i + (k + 1) := by omega
        rw [this]
        rfl

/-- The running minimum never increases: starting from `some mb`, the
loop ends at `some mf` with `mf ≤ mb`. -/
theorem closestLoop_min_le (v : Box) (ps : List Box) :
    ∀ (i : ℕ) (mb : ℚ) (b : ℤ),
      ∃ mf, (closestLoop v ps i (some mb) b).1 = some mf ∧ mf ≤ mb := by
  induction ps with
  | nil => intro i mb b; exact ⟨mb, rfl, le_refl _⟩
  | cons p ps ih =>
    intro i mb b
    by_cases hlt : centerDistSq v p < mb
    · by_cases hq : withinAssocRange v p = true
      · have hstep : closestLoop v (p :: ps) i (some mb) b =
            closestLoop v ps (i + 1) (some (centerDistSq v p)) (Int.ofNat i) := by
          simp only [closestLoop, hq, hlt]
          simp
        rcases ih (i + 1) (centerDistSq v p) (Int.ofNat i) with ⟨mf, hmf, hle⟩
        exact ⟨mf, by rw [hstep]; exact hmf, le_of_lt (lt_of_le_of_lt hle hlt)⟩
      · have hstep : closestLoop v (p :: ps) i (some mb) b =
            closestLoop v ps (i + 1) (some mb) b := by
          simp only [closestLoop]
          rw [if_neg]
          intro hcontra
          exact hq (Bool.and_eq_true _ _ |>.mp hcontra).2
        rcases ih (i + 1) mb b with ⟨mf, hmf, hle⟩
        exact ⟨mf, by rw [hstep]; exact hmf, hle⟩
    · have hstep : closestLoop v (p :: ps) i (some mb) b =
          closestLoop v ps (i + 1) (some mb) b := by
        simp only [closestLoop]
        rw [if_neg]
        simp [hlt]
      rcases ih (i + 1) mb b with ⟨mf, hmf, hle⟩
      exact ⟨mf, by rw [hstep]; exact hmf, hle⟩

/-- The final minimum is at most the squared distance of every
qualifying person in the remaining list. -/
theorem closestLoop_min_le_qual (v : Box) (ps : List Box) :
    ∀ (i : ℕ) (m : Option ℚ) (b : ℤ) (k : ℕ) (h : k < ps.length),
      withinAssocRange v (ps.get ⟨k, h⟩) = true →
      ∃ mf, (closestLoop v ps i m b).1 = some mf ∧
        mf ≤ centerDistSq v (ps.get ⟨k, h⟩) := by
  induction ps with
  | nil => intro i m b k h; exact absurd h (Nat.not_lt_zero k)
  | cons p ps ih =>
    intro i m b k h hq
    match k with
    | 0 =>
      have hqp : withinAssocRange v p = true := hq
      match m with
      | none =>
        have hstep : closestLoop v (p :: ps) i none b =
            closestLoop v ps (i + 1) (some (centerDistSq v p)) (Int.ofNat i) := by
          simp only [closestLoop, hqp]
          simp
        rcases closestLoop_min_le v ps (i + 1) (centerDistSq v p) (Int.ofNat i) with
          ⟨mf, hmf, hle⟩
        exact ⟨mf, by rw [hstep]; exact hmf, hle⟩
      | some mb =>
        by_cases hlt : centerDistSq v p < mb
        · have hstep : closestLoop v (p :: ps) i (some mb) b =
              closestLoop v ps (i + 1) (some (centerDistSq v p)) (Int.ofNat i) := by
            simp only [closestLoop, hqp, hlt]
            simp
          rcases closestLoop_min_le v ps (i + 1) (centerDistSq v p) (Int.ofNat i) with
            ⟨mf, hmf, hle⟩
          exact ⟨mf, by rw [hstep]; exact hmf, hle⟩
        · have hstep : closestLoop v (p :: ps) i (some mb) b =
              closestLoop v ps (i + 1) (some mb) b := by
            simp only [closestLoop]
            rw [if_neg]
            simp [hlt]
          rcases closestLoop_min_le v ps (i + 1) mb b with ⟨mf, hmf, hle⟩
          refine ⟨mf, by rw [hstep]; exact hmf, le_trans hle (not_lt.mp hlt)⟩
    | k + 1 =>
      have hk : k < ps.length := Nat.lt_of_succ_lt_succ h
      by_cases hstep :
          ((match m with
            | none => true
            | some mq => decide (centerDistSq v p < mq)) && withinAssocRange v p) = true
      · have hgo : closestLoop v (p :: ps) i m b =
            closestLoop v ps (i + 1) (some (centerDistSq v p)) (Int.ofNat i) := by
          simp only [closestLoop, hstep, if_true]
        rcases ih (i + 1) (some (centerDistSq v p)) (Int.ofNat i) k hk hq with ⟨mf, hmf, hle⟩
        exact ⟨mf, by rw [hgo]; exact hmf, hle⟩
      · have hgo : closestLoop v (p :: ps) i m b = closestLoop v ps (i + 1) m b := by
          simp only [closestLoop]
          rw [if_neg hstep]
        rcases ih (i + 1) m b k hk hq with ⟨mf, hmf, hle⟩
        exact ⟨mf, by rw [hgo]; exact hmf, hle⟩

/-- A nonnegative best index is preserved by the loop. -/
theorem closestLoop_best_nonneg (v : Box) (ps : List Box) :
    ∀ (i : ℕ) (m : Option ℚ) (b : ℤ), 0 ≤ b → 0 ≤ (closestLoop v ps i m b).2 := by
  induction ps with
  | nil => intro i m b hb; exact hb
  | cons p ps ih =>
    intro i m b hb
    by_cases hstep :
        ((match m with
          | none => true
          | some mq => decide (centerDistSq v p < mq)) && withinAssocRange v p) = true
    · have hgo : closestLoop v (p :: ps) i m b =
          closestLoop v ps (i + 1) (some (centerDistSq v p)) (Int.ofNat i) := by
        simp only [closestLoop, hstep, if_true]
      rw [hgo]
      exact ih (i + 1) _ _ (Int.ofNat_nonneg i)
    · have hgo : closestLoop v (p :: ps) i m b = closestLoop v ps (i + 1) m b := by
        simp only [closestLoop]
        rw [if_neg hstep]
      rw [hgo]
      exact ih (i + 1) m b hb

/-- Starting from the initial accumulator `(none, -1)`, the presence of
any qualifying person forces a nonnegative result index. -/
theorem closestLoop_qual_nonneg (v : Box) (ps : List Box) :
    ∀ (i : ℕ) (k : ℕ) (h : k < ps.length),
      withinAssocRange v (ps.get ⟨k, h⟩) = true →
      0 ≤ (closestLoop v ps i none (-1)).2 := by
  induction ps with
  | nil => intro i k h; exact absurd h (Nat.not_lt_zero k)
  | cons p ps ih =>
    intro i k h hq
    match k with
    | 0 =>
      have hqp : withinAssocRange v p = true := hq
      have hgo : closestLoop v (p :: ps) i none (-1) =
          closestLoop v ps (i + 1) (some (centerDistSq v p)) (Int.ofNat i) := by
        simp only [closestLoop, hqp]
        simp
      rw [hgo]
      exact closestLoop_best_nonneg v ps (i + 1) _ _ (Int.ofNat_nonneg i)
    | k + 1 =>
      have hk : k < ps.length := Nat.lt_of_succ_lt_succ h
      by_cases hqp : withinAssocRange v p = true
      · have hgo : closestLoop v (p :: ps) i none (-1) =
            closestLoop v ps (i + 1) (some (centerDistSq v p)) (Int.ofNat i) := by
          simp only [closestLoop, hqp]
          simp
        rw [hgo]
        exact closestLoop_best_nonneg v ps (i + 1) _ _ (Int.ofNat_nonneg i)
      · have hgo : closestLoop v (p :: ps) i none (-1) =
            closestLoop v ps (i + 1) none (-1) := by
          simp only [closestLoop]
          rw [if_neg]
          intro hcontra
          exact hqp (Bool.and_eq_true _ _ |>.mp hcontra).2
        rw [hgo]
        exact ih (i + 1) k hk hq

/-- Full characterization of `closest_person_idx`: either it is `-1`
and no person passes the range guard, or it is the index of a
qualifying person at minimal centre distance among all qualifying
people. -/
theorem closestPersonIdx_spec (people : List Box) (v : Box) :
    (closestPersonIdx people v = -1 ∧
      ∀ k (h : k < people.length), withinAssocRange v (people.get ⟨k, h⟩) = false) ∨
    ∃ k, ∃ h : k < people.length,
      closestPersonIdx people v = Int.ofNat k ∧
      withinAssocRange v (people.get ⟨k, h⟩) = true ∧
      ∀ j (hj : j < people.length), withinAssocRange v (people.get ⟨j, hj⟩) = true →
        centerDistSq v (people.get ⟨k, h⟩) ≤ centerDistSq v (people.get ⟨j, hj⟩) := by
  rcases closestLoop_shape v people 0 none (-1) with heq | ⟨k, hk, heq, hq⟩
  · left
    constructor
    · show (closestLoop v people 0 none (-1)).2 = -1
      rw [heq]
    · intro k h
      cases hval : withinAssocRange v (people.get ⟨k, h⟩) with
      | false => rfl
      | true =>
        have hpos := closestLoop_qual_nonneg v people 0 k h hval
        rw [heq] at hpos
        exact absurd hpos (by norm_num)
  · right
    refine ⟨k, hk, ?_, hq, ?_⟩
    · show (closestLoop v people 0 none (-1)).2 = Int.ofNat k
      rw [heq]
      simp
    · intro j hj hqj
      rcases closestLoop_min_le_qual v people 0 none (-1) j hj hqj with ⟨mf, hmf, hle⟩
      rw [heq] at hmf
      have : mf = centerDistSq v (people.get ⟨k, hk⟩) := by
        exact (Option.some.injEq _ _ ▸ hmf.symm : _)
      rw [this] at hle
      exact hle

/-- If `closest_person_idx` is not `-1` it is a valid nonnegative index
into the people list. -/
theorem closestPersonIdx_mem (people : List Box) (v : Box) :
    closestPersonIdx people v = -1 ∨
    ∃ k, k < people.length ∧ closestPersonIdx people v = Int.ofNat k := by
  rcases closestPersonIdx_spec people v with ⟨h1, _⟩ | ⟨k, hk, h1, _⟩
  · exact Or.inl h1
  · exact Or.inr ⟨k, hk, h1⟩

/-! ### Detections and compliance statistics (`detect_objects`) -/

/-- One raw detection as assembled in `detect_objects`: bounding box,
confidence and class id; the class name is derived via `class_names`. -/
structure Detection where
  bbox : Box
  confidence : ℚ
  class_id : ℕ
  deriving DecidableEq, Repr

/-- The `class_names` table of `PPEDetectionEngine.__init__`, with the
`f"Class_{class_id}"` fallback of `detect_objects`. -/
def className (id : ℕ) : String :=
  match id with
  | 0 => "Hardhat"
  | 1 => "Mask"
  | 2 => "NO-Hardhat"
  | 3 => "NO-Mask"
  | 4 => "NO-Safety Vest"
  | 5 => "Person"
  | 6 => "Safety Cone"
  | 7 => "Safety Vest"
  | 8 => "machinery"
  | 9 => "vehicle"
  | n => "Class_" ++ toString n

/-- Selects detections whose class name is "Person". -/
def isPerson (d : Detection) : Bool := className d.class_id == "Person"

/-- Selects detections whose class name is one of the three violation classes. -/
def isViolationDet (d : Detection) : Bool :=
  ["NO-Hardhat", "NO-Mask", "NO-Safety Vest"].contains (className d.class_id)

/-- One entry of the violations list inside `compliance_stats`. -/
structure ViolationRec where
  vtype : String
  bbox : Box
  confidence : ℚ
  associated_person_idx : ℤ
  deriving DecidableEq, Repr

/-- The `compliance_stats` dict computed by `detect_objects`. -/
structure ComplianceStats where
  total_people : ℕ
  compliant_people : ℤ
  violations : List ViolationRec
  compliance_rate : ℚ
  people_with_violations : ℕ
  deriving DecidableEq, Repr

/-- The association and statistics pass of `detect_objects`
(lines 143–225), over the raw detections of one frame.  People and
violations are partitioned in detection order; every violation is
appended to the list exactly once, carrying its nearest-person index or
`-1`; `people_with_violations` is the size of the set of indices that
received at least one association. -/
def detectComplianceStats (dets : List Detection) : ComplianceStats :=
  let people := dets.filter isPerson
  let viols := dets.filter isViolationDet
  let total := people.length
  let peopleBoxes := people.map (·.bbox)
  let violations := viols.map (fun d =>
    { vtype := className d.class_id
      bbox := d.bbox
      confidence := d.confidence
      associated_person_idx := closestPersonIdx peopleBoxes d.bbox : ViolationRec })
  let pwv :=
    (((violations.map (·.associated_person_idx)).filter (fun i => decide (0 ≤ i))).toFinset).card
  if 0 < total then
    { total_people := total
      compliant_people := (total : ℤ) - pwv
      violations := violations
      compliance_rate := (((total : ℚ) - pwv) / total) * 100
      people_with_violations := pwv }
  else
    { total_people := total
      compliant_people := 0
      violations := violations
      compliance_rate := 100
      people_with_violations := pwv }

/-- Every index in the `people_with_violations` set is a valid person
index, so the set has at most `total_people` elements. -/
theorem pwv_le_total (dets : List Detection) :
    (detectComplianceStats dets).people_with_violations ≤
      (detectComplianceStats dets).total_people := by
  have key : ∀ (viols : List Detection) (peopleBoxes : List Box),
      ((((viols.map (fun d =>
        { vtype := className d.class_id
          bbox := d.bbox
          confidence := d.confidence
          associated_person_idx := closestPersonIdx peopleBoxes d.bbox : ViolationRec })).map
            (·.associated_person_idx)).filter (fun i => decide (0 ≤ i))).toFinset).card ≤
        peopleBoxes.length := by
    intro viols peopleBoxes
    have hsub :
        (((viols.map (fun d =>
          { vtype := className d.class_id
            bbox := d.bbox
            confidence := d.confidence
            associated_person_idx := closestPersonIdx peopleBoxes d.bbox : ViolationRec })).map
              (·.associated_person_idx)).filter (fun i => decide (0 ≤ i))).toFinset ⊆
          (Finset.range peopleBoxes.length).image Int.ofNat := by
      intro x hx
      rw [List.mem_toFinset, List.mem_filter] at hx
      obtain ⟨hmem, hpos⟩ := hx
      rw [List.map_map, List.mem_map] at hmem
      obtain ⟨d, _, hxd⟩ := hmem
      have hx0 : 0 ≤ x := of_decide_eq_true hpos
      rcases closestPersonIdx_mem peopleBoxes d.bbox with hneg | ⟨k, hk, hkeq⟩
      · rw [← hxd] at hx0
        simp only [Function.comp] at hx0
        rw [hneg] at hx0
        exact absurd hx0 (by norm_num)
      · rw [Finset.mem_image]
        refine ⟨k, Finset.mem_range.mpr hk, ?_⟩
        rw [← hxd]
        simp only [Function.comp]
        rw [hkeq]
    calc _ ≤ ((Finset.range peopleBoxes.length).image Int.ofNat).card :=
            Finset.card_le_card hsub
      _ ≤ (Finset.range peopleBoxes.length).card := Finset.card_image_le
      _ = peopleBoxes.length := Finset.card_range _
  unfold detectComplianceStats
  by_cases h : 0 < (dets.filter isPerson).length
  · simp only [h, if_true]
    have := key (dets.filter isViolationDet) ((dets.filter isPerson).map (·.bbox))
    simpa using this
  · simp only [h, if_false]
    have := key (dets.filter isViolationDet) ((dets.filter isPerson).map (·.bbox))
    simpa using this

/-- Branch structure of the statistics: either there are people and the
compliant count / rate follow the division formula, or there are none
and the defaults `0` / `100` are kept. -/
theorem detectStats_cases (dets : List Detection) :
    (0 < (detectComplianceStats dets).total_people ∧
      (detectComplianceStats dets).compliant_people =
        ((detectComplianceStats dets).total_people : ℤ) -
          ((detectComplianceStats dets).people_with_violations : ℤ) ∧
      (detectComplianceStats dets).compliance_rate =
        ((((detectComplianceStats dets).total_people : ℚ) -
          ((detectComplianceStats dets).people_with_violations : ℚ)) /
          ((detectComplianceStats dets).total_people : ℚ)) * 100) ∨
    ((detectComplianceStats dets).total_people = 0 ∧
      (detectComplianceStats dets).compliant_people = 0 ∧
      (detectComplianceStats dets).compliance_rate = 100) := by
  unfold detectComplianceStats
  by_cases h : 0 < (dets.filter isPerson).length
  · left
    simp only [h, if_true]
    refine ⟨?_, ?_, ?_⟩ <;> trivial
  · right
    simp only [h, if_false]
    refine ⟨?_, ?_, ?_⟩ <;> first | trivial | omega

/-- C1. For every detection input, the snapshot produced by
`detect_objects` satisfies `0 ≤ people_with_violations ≤ total_people`
and `compliance_rate ∈ [0, 100]`; when `total_people = 0` the rate is
`100` and the counts are zero; the empty input yields the all-zero
snapshot with rate `100`.  The definitions are total on arbitrary
(including degenerate) boxes, so no input raises. -/
theorem C1_snapshot_invariants (dets : List Detection) :
    (detectComplianceStats dets).people_with_violations ≤
      (detectComplianceStats dets).total_people ∧
    0 ≤ (detectComplianceStats dets).compliance_rate ∧
    (detectComplianceStats dets).compliance_rate ≤ 100 ∧
    ((detectComplianceStats dets).total_people = 0 →
      (detectComplianceStats dets).compliance_rate = 100 ∧
      (detectComplianceStats dets).people_with_violations = 0 ∧
      (detectComplianceStats dets).compliant_people = 0) ∧
    (dets = [] →
      detectComplianceStats dets =
        { total_people := 0, compliant_people := 0, violations := []
          compliance_rate := 100, people_with_violations := 0 }) := by
  have hle := pwv_le_total dets
  have hrate : 0 ≤ (detectComplianceStats dets).compliance_rate ∧
      (detectComplianceStats dets).compliance_rate ≤ 100 := by
    rcases detectStats_cases dets with ⟨hpos, _, hr⟩ | ⟨_, _, hr⟩
    · have hT : (0 : ℚ) < ((detectComplianceStats dets).total_people : ℚ) := by
        exact_mod_cast hpos
      have hPT : ((detectComplianceStats dets).people_with_violations : ℚ) ≤
          ((detectComplianceStats dets).total_people : ℚ) := by
        exact_mod_cast hle
      constructor
      · rw [hr]
        have h1 : (0 : ℚ) ≤ (((detectComplianceStats dets).total_people : ℚ) -
            ((detectComplianceStats dets).people_with_violations : ℚ)) /
            ((detectComplianceStats dets).total_people : ℚ) :=
          div_nonneg (by linarith) (le_of_lt hT)
        linarith
      · rw [hr]
        have h1 : (((detectComplianceStats dets).total_people : ℚ) -
            ((detectComplianceStats dets).people_with_violations : ℚ)) /
            ((detectComplianceStats dets).total_people : ℚ) ≤ 1 := by
          rw [div_le_one hT]
          linarith
        linarith
    · rw [hr]
      norm_num
  refine ⟨hle, hrate.1, hrate.2, ?_, ?_⟩
  · intro h0
    rcases detectStats_cases dets with ⟨hpos, _, _⟩ | ⟨_, hcomp, hr⟩
    · rw [h0] at hpos
      exact absurd hpos (by norm_num)
    · exact ⟨hr, by omega, hcomp⟩
  · intro h0
    subst h0
    decide

/-- Witness for C1 at the empty input. -/
theorem C1_snapshot_invariants_witness :
    (detectComplianceStats []).compliance_rate = 100 ∧
    (detectComplianceStats []).people_with_violations = 0 ∧
    (detectComplianceStats []).compliant_people = 0 :=
  (C1_snapshot_invariants []).2.2.2.1 (by decide)

/-- Modelled from the spec: the association step of the spec additionally
floors the person size to a small epsilon
(`size = max(width, height)` "floor to a small epsilon to avoid
degenerate zero-size boxes").  Kept separate from `withinAssocRange`,
which embeds the source (no floor), for refutation by comparison. -/
def specWithinAssocRange (eps : ℚ) (v p : Box) : Bool :=
  decide (0 < qmax (qmax (boxW p) (boxH p)) eps * (3 / 2)) &&
    decide (centerDistSq v p < (qmax (qmax (boxW p) (boxH p)) eps * (3 / 2)) ^ 2)

/-- Modelled from the spec: the association loop with the
epsilon-floored person size. -/
def specClosestLoop (eps : ℚ) (v : Box) : List Box → ℕ → Option ℚ → ℤ → Option ℚ × ℤ
  | [], _, minSq, best => (minSq, best)
  | p :: ps, i, minSq, best =>
    let d2 := centerDistSq v p
    if ((match minSq with
         | none => true
         | some m => decide (d2 < m)) && specWithinAssocRange eps v p) = true then
      specClosestLoop eps v ps (i + 1) (some d2) (Int.ofNat i)
    else
      specClosestLoop eps v ps (i + 1) minSq best

/-- Modelled from the spec: `closest_person_idx` under the
epsilon-floored size. -/
def specClosestPersonIdx (eps : ℚ) (people : List Box) (v : Box) : ℤ :=
  (specClosestLoop eps v people 0 none (-1)).2

/-- Counterexample to C2 as stated: for the degenerate person box
`(5,5,5,5)` and a violation centred on it (distance `0`), any positive
epsilon floor would associate the violation to person `0`
(shown at the concrete small epsilon `1/1000`), but the source applies
no floor, gets threshold `0`, and leaves the violation unassociated
(`-1`). -/
theorem C2_assoc_counterexample :
    closestPersonIdx [Box.mk 5 5 5 5] (Box.mk 5 5 5 5) = -1 ∧
    specClosestPersonIdx (1 / 1000) [Box.mk 5 5 5 5] (Box.mk 5 5 5 5) = 0 ∧
    (0 : ℚ) < 1 / 1000 := by
  refine ⟨?_, ?_, by norm_num⟩
  · norm_num [closestPersonIdx, closestLoop, withinAssocRange, maxAssocDist,
      centerDistSq, centerX, centerY, boxW, boxH, qmax]
  · norm_num [specClosestPersonIdx, specClosestLoop, specWithinAssocRange,
      centerDistSq, centerX, centerY, boxW, boxH, qmax]

/-- C2 (amended): the person size is `max(width, height)` with NO
epsilon floor; the violation goes to the nearest person whose centre
distance is strictly below `1.5 ×` that size (so a person box of
nonpositive size never qualifies); if no person qualifies the index is
`-1`, and every violation detection is still appended to the
`violations` list with its computed index. -/
theorem C2_assoc_amended (people : List Box) (v : Box) :
    ((∀ k (h : k < people.length), withinAssocRange v (people.get ⟨k, h⟩) = false) →
      closestPersonIdx people v = -1) ∧
    (closestPersonIdx people v = -1 →
      ∀ k (h : k < people.length), withinAssocRange v (people.get ⟨k, h⟩) = false) ∧
    (∀ k (h : k < people.length), closestPersonIdx people v = Int.ofNat k →
      withinAssocRange v (people.get ⟨k, h⟩) = true ∧
      ∀ j (hj : j < people.length), withinAssocRange v (people.get ⟨j, hj⟩) = true →
        centerDistSq v (people.get ⟨k, h⟩) ≤ centerDistSq v (people.get ⟨j, hj⟩)) ∧
    (∀ dets : List Detection,
      (detectComplianceStats dets).violations =
        (dets.filter isViolationDet).map (fun d =>
          { vtype := className d.class_id
            bbox := d.bbox
            confidence := d.confidence
            associated_person_idx :=
              closestPersonIdx ((dets.filter isPerson).map (·.bbox)) d.bbox })) := by
  refine ⟨?_, ?_, ?_, ?_⟩
  · intro hall
    show (closestLoop v people 0 none (-1)).2 = -1
    rw [closestLoop_no_qual v people 0 none (-1) hall]
  · intro hneg k h
    rcases closestPersonIdx_spec people v with ⟨_, hall⟩ | ⟨k', hk', heq, _, _⟩
    · exact hall k h
    · rw [hneg] at heq
      exact absurd heq (by simp)
  · intro k h hidx
    rcases closestPersonIdx_spec people v with ⟨hneg, _⟩ | ⟨k', hk', heq, hq', hmin'⟩
    · rw [hidx] at hneg
      exact absurd hneg (by simp)
    · rw [hidx] at heq
      have hkk : k = k' := Int.ofNat.inj heq
      subst hkk
      exact ⟨hq', fun j hj hqj => hmin' j hj hqj⟩
  · intro dets
    unfold detectComplianceStats
    by_cases h : 0 < (dets.filter isPerson).length
    · simp only [h, if_true]
    · simp only [h, if_false]

/-- Witness for the amended C2 at the example given in the spec: a person at
`(0,0,100,100)` and a violation box `(50,50,60,60)` (centre distance
well below `150`) associates to that person. -/
theorem C2_assoc_amended_witness :
    withinAssocRange (Box.mk 50 50 60 60) (Box.mk 0 0 100 100) = true :=
  ((C2_assoc_amended [Box.mk 0 0 100 100] (Box.mk 50 50 60 60)).2.2.1 0 (by decide)
    (by norm_num [closestPersonIdx, closestLoop, withinAssocRange, maxAssocDist,
      centerDistSq, centerX, centerY, boxW, boxH, qmax])).1

/-- C3. `people_with_violations` is the number of distinct person
indices holding at least one associated violation; with people present,
`compliant_people = total_people − people_with_violations` and
`compliance_rate = compliant_people / total_people × 100`; and the
two-people one-violation example yields exactly the
`50%` snapshot. -/
theorem C3_compliance_counts :
    (∀ dets : List Detection,
      (detectComplianceStats dets).people_with_violations =
        ((((detectComplianceStats dets).violations.map (·.associated_person_idx)).filter
          (fun i => decide (0 ≤ i))).toFinset).card ∧
      (0 < (detectComplianceStats dets).total_people →
        (detectComplianceStats dets).compliant_people =
          ((detectComplianceStats dets).total_people : ℤ) -
            ((detectComplianceStats dets).people_with_violations : ℤ) ∧
        (detectComplianceStats dets).compliance_rate =
          ((((detectComplianceStats dets).compliant_people : ℚ)) /
            ((detectComplianceStats dets).total_people : ℚ)) * 100)) ∧
    detectComplianceStats
      [⟨Box.mk 0 0 100 200, 9 / 10, 5⟩, ⟨Box.mk 200 0 300 200, 9 / 10, 5⟩,
        ⟨Box.mk 10 10 50 50, 8 / 10, 2⟩] =
      { total_people := 2, compliant_people := 1
        violations := [⟨"NO-Hardhat", Box.mk 10 10 50 50, 8 / 10, 0⟩]
        compliance_rate := 50, people_with_violations := 1 } := by
  constructor
  · intro dets
    constructor
    · unfold detectComplianceStats
      by_cases h : 0 < (dets.filter isPerson).length
      · simp only [h, if_true]
      · simp only [h, if_false]
    · intro hpos
      rcases detectStats_cases dets with ⟨_, hcomp, hr⟩ | ⟨h0, _, _⟩
      · refine ⟨hcomp, ?_⟩
        rw [hr, hcomp]
        push_cast
        ring
      · rw [h0] at hpos
        exact absurd hpos (by norm_num)
  · simp only [detectComplianceStats, isPerson, isViolationDet, className,
      closestPersonIdx, closestLoop, withinAssocRange, maxAssocDist,
      centerDistSq, centerX, centerY, boxW, boxH, qmax,
      List.filter_cons, List.toFinset_cons, Function.comp, beq_iff_eq,
      String.reduceEq, decide_eq_true_eq]
    simp
    norm_num [List.filter_cons, List.toFinset_cons, Finset.filter_singleton,
      Finset.card_singleton]

/-- Witness for C3 at the two-people one-violation input. -/
theorem C3_compliance_counts_witness :
    (detectComplianceStats
      [⟨Box.mk 0 0 100 200, 9 / 10, 5⟩, ⟨Box.mk 200 0 300 200, 9 / 10, 5⟩,
        ⟨Box.mk 10 10 50 50, 8 / 10, 2⟩]).compliant_people =
      ((detectComplianceStats
      [⟨Box.mk 0 0 100 200, 9 / 10, 5⟩, ⟨Box.mk 200 0 300 200, 9 / 10, 5⟩,
        ⟨Box.mk 10 10 50 50, 8 / 10, 2⟩]).total_people : ℤ) -
        ((detectComplianceStats
      [⟨Box.mk 0 0 100 200, 9 / 10, 5⟩, ⟨Box.mk 200 0 300 200, 9 / 10, 5⟩,
        ⟨Box.mk 10 10 50 50, 8 / 10, 2⟩]).people_with_violations : ℤ) :=
  ((C3_compliance_counts.1
      [⟨Box.mk 0 0 100 200, 9 / 10, 5⟩, ⟨Box.mk 200 0 300 200, 9 / 10, 5⟩,
        ⟨Box.mk 10 10 50 50, 8 / 10, 2⟩]).2 (by decide)).1

/-! ### Batch video processing (`process_video`, lines 414–501) -/

/-- One entry of the frame_violations list inside `video_stats`. -/
structure FrameViolation where
  frame : ℕ
  timestamp : ℚ
  violations : List ViolationRec
  people_with_violations : ℕ
  deriving DecidableEq, Repr

/-- The loop state of `process_video` touched by the frame-skip /
persistence logic and the aggregated statistics. -/
structure VideoState where
  last_detections : List Detection
  last_detection_frame : ℤ
  frame_count : ℕ
  total_violations : ℕ
  compliance_timeline : List ℚ
  frame_violations : List FrameViolation
  skipped_frames : ℕ
  processed_count : ℕ
  deriving DecidableEq, Repr

/-- Loop entry state: `last_detections = []`,
`last_detection_frame = -1`, all counters zero. -/
def initVideoState : VideoState :=
  { last_detections := [], last_detection_frame := -1, frame_count := 0
    total_violations := 0, compliance_timeline := [], frame_violations := []
    skipped_frames := 0, processed_count := 0 }

/-- Embeds `detection_persistence = skip_frames * DEFAULT_DETECTION_PERSISTENCE
if persistent_overlay else 0`, with `DEFAULT_DETECTION_PERSISTENCE = 3`. -/
def detectionPersistence (skip_frames : ℕ) (persistent_overlay : Bool) : ℕ :=
  if persistent_overlay then skip_frames * 3 else 0

/-- The guard
`persistent_overlay and last_detections and
(frame_count - last_detection_frame) <= detection_persistence`
(an empty `last_detections` list is falsy in Python). -/
def persistGuard (skip_frames : ℕ) (persistent_overlay : Bool) (st : VideoState) : Bool :=
  persistent_overlay && !st.last_detections.isEmpty &&
    decide ((st.frame_count : ℤ) - st.last_detection_frame ≤
      (detectionPersistence skip_frames persistent_overlay : ℤ))

/-- One iteration of the `process_video` loop, restricted to the
detection/statistics logic (`scale_factor = 1` path; drawing and file
output are external).  `res` is the outcome of the fresh
`detect_objects` pass: `none` when the pass errors or is not run.
Returns the new state and `current_detections`, the detections drawn
on this frame (`[]` = no overlay). -/
def videoStep (skip_frames : ℕ) (persistent_overlay : Bool) (fps : ℚ)
    (st : VideoState) (res : Option (List Detection)) : VideoState × List Detection :=
  if st.frame_count % skip_frames == 0 then
    match res with
    | some dets =>
      let stats := detectComplianceStats dets
      let st1 := { st with
        last_detections := dets
        last_detection_frame := (st.frame_count : ℤ)
        total_violations := st.total_violations + stats.people_with_violations
        compliance_timeline := st.compliance_timeline ++ [stats.compliance_rate]
        frame_violations :=
          if 0 < stats.people_with_violations then
            st.frame_violations ++
              [({ frame := st.frame_count
                  timestamp := (st.frame_count : ℚ) / fps
                  violations := stats.violations
                  people_with_violations := stats.people_with_violations } : FrameViolation)]
          else st.frame_violations
        processed_count := st.processed_count + 1 }
      ({ st1 with frame_count := st1.frame_count + 1 }, dets)
    | none =>
      let current :=
        if persistGuard skip_frames persistent_overlay st then st.last_detections else []
      ({ st with frame_count := st.frame_count + 1 }, current)
  else
    let current :=
      if persistGuard skip_frames persistent_overlay st then st.last_detections else []
    ({ st with
        skipped_frames := st.skipped_frames + 1
        frame_count := st.frame_count + 1 }, current)

/-- C5. With persistence enabled and non-empty stored detections, a
frame that is not freshly processed (off the skip grid, or its fresh
pass failed) reuses the stored detections for overlay exactly when
`frame_count − last_detection_frame ≤ skip_frames × 3`, and otherwise
draws no overlay. -/
theorem C5_persistence_window (skip_frames : ℕ) (fps : ℚ) (st : VideoState)
    (res : Option (List Detection))
    (hnf : st.frame_count % skip_frames ≠ 0 ∨ res = none)
    (hne : st.last_detections ≠ []) :
    ((videoStep skip_frames true fps st res).2 = st.last_detections ↔
      (st.frame_count : ℤ) - st.last_detection_frame ≤ (skip_frames : ℤ) * 3) ∧
    ((skip_frames : ℤ) * 3 < (st.frame_count : ℤ) - st.last_detection_frame →
      (videoStep skip_frames true fps st res).2 = []) := by
  have hguard : persistGuard skip_frames true st = true ↔
      (st.frame_count : ℤ) - st.last_detection_frame ≤ (skip_frames : ℤ) * 3 := by
    unfold persistGuard detectionPersistence
    rw [if_pos rfl]
    constructor
    · intro h
      have := (Bool.and_eq_true _ _).mp h |>.2
      have h2 := of_decide_eq_true this
      push_cast at h2
      exact h2
    · intro h
      have hne2 : st.last_detections.isEmpty = false := by
        cases hl : st.last_detections with
        | nil => exact absurd hl hne
        | cons a l => rfl
      simp [hne2]
      omega
  have hover : (videoStep skip_frames true fps st res).2 =
      if persistGuard skip_frames true st then st.last_detections else [] := by
    unfold videoStep
    rcases hnf with hmod | hres
    · have hbeq : (st.frame_count % skip_frames == 0) = false := by
        simp [hmod]
      rw [if_neg (by simp [hbeq])]
    · subst hres
      by_cases hbeq : (st.frame_count % skip_frames == 0) = true
      · rw [if_pos hbeq]
      · rw [if_neg hbeq]
  constructor
  · rw [hover]
    by_cases hg : persistGuard skip_frames true st = true
    · rw [if_pos hg]
      simp only [iff_true_intro rfl, true_iff]
      exact hguard.mp hg
    · rw [if_neg hg]
      constructor
      · intro h
        exact absurd h.symm hne
      · intro h
        exact absurd (hguard.mpr h) hg
  · intro h
    rw [hover, if_neg]
    intro hg
    have := hguard.mp hg
    omega


/-- A sample detection used by concrete video-state examples. -/
def demoDetection : Detection := ⟨Box.mk 0 0 1 1, 1, 5⟩

/-- A video state whose stored detections come from frame `0`, now at
frame `n`. -/
def persistDemoState (n : ℕ) : VideoState :=
  { last_detections := [demoDetection], last_detection_frame := 0, frame_count := n
    total_violations := 0, compliance_timeline := [], frame_violations := []
    skipped_frames := 0, processed_count := 0 }

/-- Witness for C5 in the concrete setting of the spec: `skip_interval = 4`,
window `12`, last detection at frame `0`; frame `11` reuses the stored
detections, frame `13` draws no overlay. -/
theorem C5_persistence_window_witness :
    (videoStep 4 true 30 (persistDemoState 11) none).2 = [demoDetection] ∧
    (videoStep 4 true 30 (persistDemoState 13) none).2 = [] := by
  constructor
  · exact (C5_persistence_window 4 30 (persistDemoState 11) none
      (Or.inl (by decide)) (by decide)).1.mpr (by decide)
  · exact (C5_persistence_window 4 30 (persistDemoState 13) none
      (Or.inl (by decide)) (by decide)).2 (by decide)

/-- C6. A frame that does not run a successful fresh detection pass
(off the skip grid, or the pass failed) leaves `total_violations`,
`compliance_timeline` and `frame_violations` unchanged — persisted
overlays are never aggregated. -/
theorem C6_no_double_count (skip_frames : ℕ) (persistent_overlay : Bool) (fps : ℚ)
    (st : VideoState) (res : Option (List Detection))
    (hnf : st.frame_count % skip_frames ≠ 0 ∨ res = none) :
    (videoStep skip_frames persistent_overlay fps st res).1.total_violations =
      st.total_violations ∧
    (videoStep skip_frames persistent_overlay fps st res).1.compliance_timeline =
      st.compliance_timeline ∧
    (videoStep skip_frames persistent_overlay fps st res).1.frame_violations =
      st.frame_violations := by
  unfold videoStep
  rcases hnf with hmod | hres
  · have hbeq : (st.frame_count % skip_frames == 0) = false := by
      simp [hmod]
    rw [if_neg (by simp [hbeq])]
    exact ⟨rfl, rfl, rfl⟩
  · subst hres
    by_cases hbeq : (st.frame_count % skip_frames == 0) = true
    · rw [if_pos hbeq]
      exact ⟨rfl, rfl, rfl⟩
    · rw [if_neg hbeq]
      exact ⟨rfl, rfl, rfl⟩

/-- A video state on an off-grid frame with prior aggregates. -/
def skipDemoState : VideoState :=
  { last_detections := [], last_detection_frame := -1, frame_count := 1
    total_violations := 7, compliance_timeline := [50], frame_violations := []
    skipped_frames := 0, processed_count := 0 }

/-- Witness for C6: a skipped frame (frame 1, skip interval 4) keeps
all three aggregates at their prior values. -/
theorem C6_no_double_count_witness :
    (videoStep 4 true 30 skipDemoState none).1.total_violations = 7 ∧
    (videoStep 4 true 30 skipDemoState none).1.compliance_timeline = [50] ∧
    (videoStep 4 true 30 skipDemoState none).1.frame_violations = [] :=
  C6_no_double_count 4 true 30 skipDemoState none (Or.inl (by decide))

/-! ### Webcam session state (`webcam_component.WebcamPPEDetector`) -/

/-- One recent-attendance event (the `detection_info` dict appended to
`recent_detections`). -/
structure AttendanceEvent where
  name : String
  employee_id : String
  department : String
  timestamp : ℚ
  confidence : ℚ
  status : String
  deriving DecidableEq, Repr

/-- One face-recognition result, restricted to the fields attendance
processing reads. -/
structure FaceResult where
  recognized_person : Option String
  recognition_confidence : ℚ
  deriving DecidableEq, Repr

/-- Employee info returned by `attendance_manager.get_employee_by_name`. -/
structure Employee where
  employee_id : String
  department : String
  deriving DecidableEq, Repr

/-- Outcome of the external `attendance_manager.record_attendance`
write: returned `True`, returned `False`, or raised. -/
inductive StoreOutcome where
  | ok
  | failed
  | exn
  deriving DecidableEq, Repr

/-- The statistics snapshot pushed through `stats_queue`, restricted to
the fields produced by the fallback path of `get_latest_stats` (the
full per-frame dict carries additional display-only fields no claim
mentions). -/
structure StatsSnap where
  frame_count : ℕ
  total_people : ℕ
  violations : ℕ
  compliance_rate : ℚ
  session_duration : ℚ
  total_people_session : ℕ
  total_violations_session : ℕ
  avg_compliance_rate : ℚ
  deriving DecidableEq, Repr

/-- The mutable state of `WebcamPPEDetector` touched by the claims. -/
structure WebcamState where
  start_time : ℚ
  session_id : ℤ
  last_session_duration : ℚ
  session_active : Bool
  frame_count : ℕ
  total_people_detected : ℕ
  total_violations_detected : ℕ
  attendance_cooldown : ℕ
  attendance_records : List (String × ℚ)
  recent_detections : List AttendanceEvent
  employee_cache : List (String × Employee)
  cache_refresh_time : ℚ
  attendance_updated : Bool
  stats_queue : List StatsSnap
  compliance_history : List ℚ
  people_history : List ℕ
  violation_history : List ℕ
  deriving DecidableEq, Repr

/-- Python `int(t)` (truncation toward zero) on a rational time. -/
def intTrunc (q : ℚ) : ℤ := q.num / (q.den : ℤ)

/-- The `__init__` state of `WebcamPPEDetector` at wall-clock `t0`:
session active, cooldown 30 s, everything else empty/zero. -/
def initWebcamState (t0 : ℚ) : WebcamState :=
  { start_time := t0, session_id := intTrunc t0, last_session_duration := 0
    session_active := true, frame_count := 0, total_people_detected := 0
    total_violations_detected := 0, attendance_cooldown := 30
    attendance_records := [], recent_detections := [], employee_cache := []
    cache_refresh_time := 0, attendance_updated := false, stats_queue := []
    compliance_history := [], people_history := [], violation_history := [] }

/-- Python binary `max` on naturals, written as an `if` so that it is
kernel-reducible. -/
def nmax (a b : ℕ) : ℕ := if a ≤ b then b else a

/-- Python dict assignment `d[k] = v` on an association list. -/
def dictInsert (l : List (String × ℚ)) (k : String) (v : ℚ) : List (String × ℚ) :=
  (k, v) :: l.filter (fun p => !(p.1 == k))

/-- Looking up the just-assigned key returns the new value. -/
theorem dictInsert_lookup (l : List (String × ℚ)) (k : String) (v : ℚ) :
    (dictInsert l k v).lookup k = some v := by
  unfold dictInsert
  simp [List.lookup]

/-- The producer-side push of a statistics snapshot
(`video_frame_callback`, lines 216–230): `put_nowait` on the bounded
queue (maxsize 50); when full, five oldest entries are removed, then
the new entry is inserted. -/
def pushStats {α : Type} (q : List α) (x : α) : List α :=
  if q.length < 50 then q ++ [x]
  else
    let q2 := q.drop 5
    if q2.length < 50 then q2 ++ [x] else q2

/-- The drain loop of `get_latest_stats` (lines 416–420): repeatedly
`get_nowait`, keeping only the newest entry. -/
def drainLatest {α : Type} : List α → Option α → Option α
  | [], acc => acc
  | x :: xs, _ => drainLatest xs (some x)

/-- Draining returns the last queued entry (or the accumulator when the
queue is empty). -/
theorem drainLatest_eq (α : Type) (l : List α) :
    ∀ acc : Option α, drainLatest l acc = l.getLast?.or acc := by
  induction l with
  | nil => intro acc; rfl
  | cons x xs ih =>
    intro acc
    show drainLatest xs (some x) = (x :: xs).getLast?.or acc
    rw [ih (some x)]
    cases hxs : xs with
    | nil => rfl
    | cons y ys =>
      rw [List.getLast?_cons_cons]
      cases hg : (y :: ys).getLast? with
      | none => exact absurd hg (by simp)
      | some z => rfl

/-- Embeds `_get_employee_cached` (lines 349–367): 5-minute TTL cache clear,
cache lookup, then DB fetch (`getDb`) populating the cache. -/
def getEmployeeCached (getDb : String → Option Employee) (now : ℚ)
    (st : WebcamState) (person_name : String) : Option Employee × WebcamState :=
  let stc := if 300 < now - st.cache_refresh_time then
      { st with employee_cache := [], cache_refresh_time := now }
    else st
  match stc.employee_cache.lookup person_name with
  | some e => (some e, stc)
  | none =>
    match getDb person_name with
    | some e => (some e, { stc with employee_cache := (person_name, e) :: stc.employee_cache })
    | none => (none, stc)

/-- The cache helper never touches the attendance fields. -/
theorem getEmployeeCached_preserves (getDb : String → Option Employee) (now : ℚ)
    (st : WebcamState) (person_name : String) :
    (getEmployeeCached getDb now st person_name).2.attendance_records =
      st.attendance_records ∧
    (getEmployeeCached getDb now st person_name).2.recent_detections =
      st.recent_detections ∧
    (getEmployeeCached getDb now st person_name).2.attendance_updated =
      st.attendance_updated := by
  unfold getEmployeeCached
  by_cases h : 300 < now - st.cache_refresh_time
  · simp only [if_pos h]
    rcases hl : List.lookup person_name (∅ : List (String × Employee)) with _ | e
    · cases hdb : getDb person_name <;> simp [hl, hdb]
    · simp at hl
  · simp only [if_neg h]
    cases hl : st.employee_cache.lookup person_name with
    | some e => simp [hl]
    | none => cases hdb : getDb person_name <;> simp [hl, hdb]

/-- Processing of one recognized face inside `_process_attendance`
(lines 291–347).  `getDb` models `get_employee_by_name` (with `none`
also covering a raised fetch); `store` models `record_attendance`,
keyed by employee id.  The cooldown guard is
`now - last_record_time <= max(30, attendance_cooldown // 2)`. -/
def processFace (getDb : String → Option Employee) (store : String → StoreOutcome)
    (now : ℚ) (st : WebcamState) (face : FaceResult) : WebcamState :=
  match face.recognized_person with
  | none => st
  | some person_name =>
    if 55 < face.recognition_confidence then
      let last_record_time := (st.attendance_records.lookup person_name).getD 0
      if now - last_record_time ≤ ((nmax 30 (st.attendance_cooldown / 2) : ℕ) : ℚ) then
        st
      else
        match getEmployeeCached getDb now st person_name with
        | (none, st1) => st1
        | (some emp, st1) =>
          match store emp.employee_id with
          | .ok =>
            let st2 := { st1 with
              attendance_records := dictInsert st1.attendance_records person_name now }
            let recent := st2.recent_detections ++
              [({ name := person_name, employee_id := emp.employee_id
                  department := emp.department, timestamp := now
                  confidence := face.recognition_confidence
                  status := "Present" } : AttendanceEvent)]
            { st2 with
                recent_detections := if 10 < recent.length then recent.drop 1 else recent
                attendance_updated := true }
          | .failed => st1
          | .exn => st1
    else st

/-- Embeds `_process_attendance` over a frame batch of recognized faces, all
sharing one `current_time`. -/
def processAttendance (getDb : String → Option Employee)
    (store : String → StoreOutcome) (now : ℚ) (st : WebcamState)
    (faces : List FaceResult) : WebcamState :=
  faces.foldl (processFace getDb store now) st

/-- Embeds `check_and_reset_attendance_update` (lines 404–409). -/
def checkAndResetAttendanceUpdate (st : WebcamState) : Bool × WebcamState :=
  if st.attendance_updated then (true, { st with attendance_updated := false })
  else (false, st)

/-- Embeds `get_latest_stats` (lines 411–441): drain the queue keeping the
newest entry; when nothing was queued but frames were processed,
synthesize the fallback snapshot.  Returns the result and the
post-drain state. -/
def getLatestStats (now : ℚ) (st : WebcamState) : Option StatsSnap × WebcamState :=
  let st1 := { st with stats_queue := [] }
  match drainLatest st.stats_queue none with
  | some s => (some s, st1)
  | none =>
    if 0 < st.frame_count then
      (some { frame_count := st.frame_count
              total_people := 0
              violations := 0
              compliance_rate := 100
              session_duration :=
                if st.session_active then now - st.start_time
                else st.last_session_duration
              total_people_session := st.total_people_detected
              total_violations_session := st.total_violations_detected
              avg_compliance_rate :=
                if st.compliance_history.isEmpty then 100
                else st.compliance_history.sum / (st.compliance_history.length : ℚ) }, st1)
    else (none, st1)

/-- Embeds `stop_session` (lines 443–447): freeze the duration. -/
def stopSession (now : ℚ) (st : WebcamState) : WebcamState :=
  if st.session_active then
    { st with last_session_duration := now - st.start_time, session_active := false }
  else st

/-- Embeds `start_session` (lines 449–453). -/
def startSession (now : ℚ) (st : WebcamState) : WebcamState :=
  { st with start_time := now, session_active := true, last_session_duration := 0 }

/-- Embeds `reset_stats` (lines 455–483): clears counters, histories, clock
and queue; `attendance_records`, `recent_detections` and the employee
cache are not touched. -/
def resetStats (now : ℚ) (st : WebcamState) : WebcamState :=
  { st with
      frame_count := 0
      total_people_detected := 0
      total_violations_detected := 0
      start_time := now
      session_id := intTrunc now
      last_session_duration := 0
      session_active := true
      compliance_history := []
      people_history := []
      violation_history := []
      stats_queue := [] }

/-- C7. Pushing a snapshot never blocks or raises (the push is a total
function bounded by the capacity): when the queue holds 50 entries, the
5 oldest are evicted in one batch and the new entry is appended; and
the consumer drain always returns the newest queued entry. -/
theorem C7_lossy_stats_queue (α : Type) (q : List α) (x : α) :
    (q.length = 50 → pushStats q x = q.drop 5 ++ [x]) ∧
    (q.length ≤ 50 → (pushStats q x).length ≤ 50) ∧
    drainLatest q none = q.getLast? := by
  refine ⟨?_, ?_, ?_⟩
  · intro h50
    unfold pushStats
    rw [if_neg (by omega)]
    have hd : (q.drop 5).length = q.length - 5 := List.length_drop 5 q
    rw [if_pos (by omega)]
  · intro hle
    unfold pushStats
    by_cases h : q.length < 50
    · rw [if_pos h, List.length_append]
      simp
      omega
    · have hd : (q.drop 5).length = q.length - 5 := List.length_drop 5 q
      rw [if_neg h, if_pos (by omega), List.length_append]
      simp
      omega
  · rw [drainLatest_eq]
    exact Option.or_none

/-- Witness for C7: a full queue of 50 entries evicts a batch of 5 and
accepts the new entry; draining the queue `[1, 2, 3]` yields `3`. -/
theorem C7_lossy_stats_queue_witness :
    pushStats (List.range 50) 99 = (List.range 50).drop 5 ++ [99] ∧
    (pushStats (List.range 50) 99).length ≤ 50 ∧
    drainLatest [1, 2, 3] none = some 3 :=
  ⟨(C7_lossy_stats_queue ℕ (List.range 50) 99).1 (by decide),
   (C7_lossy_stats_queue ℕ (List.range 50) 99).2.1 (by decide),
   ((C7_lossy_stats_queue ℕ [1, 2, 3] 9).2.2).trans (by decide)⟩

/-- C9. Starting a session activates it and resets the clock without
clearing histories or cumulative counters, and none of the session
boundary operations touches the per-identity attendance map. -/
theorem C9_session_state_preservation (now t : ℚ) (st : WebcamState) :
    (startSession now st).session_active = true ∧
    (startSession now st).start_time = now ∧
    (startSession now st).compliance_history = st.compliance_history ∧
    (startSession now st).people_history = st.people_history ∧
    (startSession now st).violation_history = st.violation_history ∧
    (startSession now st).frame_count = st.frame_count ∧
    (startSession now st).total_people_detected = st.total_people_detected ∧
    (startSession now st).total_violations_detected = st.total_violations_detected ∧
    (startSession now st).attendance_records = st.attendance_records ∧
    (stopSession t st).attendance_records = st.attendance_records ∧
    (resetStats now st).attendance_records = st.attendance_records := by
  refine ⟨rfl, rfl, rfl, rfl, rfl, rfl, rfl, rfl, rfl, ?_, rfl⟩
  unfold stopSession
  split <;> rfl

/-- C10. With an empty queue and at least one processed frame, the
fallback snapshot reports zero current people/violations and rate 100
while preserving the cumulative totals and the averaged compliance
history; its duration is live (`now − start_time`) while active, and
otherwise the value frozen by `stop_session`. -/
theorem C10_empty_queue_fallback (now : ℚ) (st : WebcamState)
    (hq : st.stats_queue = []) (hf : 0 < st.frame_count) :
    (getLatestStats now st).1 =
      some { frame_count := st.frame_count
             total_people := 0
             violations := 0
             compliance_rate := 100
             session_duration :=
               if st.session_active then now - st.start_time
               else st.last_session_duration
             total_people_session := st.total_people_detected
             total_violations_session := st.total_violations_detected
             avg_compliance_rate :=
               if st.compliance_history.isEmpty then 100
               else st.compliance_history.sum / (st.compliance_history.length : ℚ) } ∧
    (getLatestStats now st).2.stats_queue = [] ∧
    (∀ t1, st.session_active = true →
      (stopSession t1 st).last_session_duration = t1 - st.start_time ∧
      (stopSession t1 st).session_active = false ∧
      (getLatestStats now (stopSession t1 st)).1 =
        some { frame_count := st.frame_count
               total_people := 0
               violations := 0
               compliance_rate := 100
               session_duration := t1 - st.start_time
               total_people_session := st.total_people_detected
               total_violations_session := st.total_violations_detected
               avg_compliance_rate :=
                 if st.compliance_history.isEmpty then 100
                 else st.compliance_history.sum / (st.compliance_history.length : ℚ) }) := by
  have hmain : ∀ s : WebcamState, s.stats_queue = [] → 0 < s.frame_count →
      (getLatestStats now s).1 =
        some { frame_count := s.frame_count
               total_people := 0
               violations := 0
               compliance_rate := 100
               session_duration :=
                 if s.session_active then now - s.start_time
                 else s.last_session_duration
               total_people_session := s.total_people_detected
               total_violations_session := s.total_violations_detected
               avg_compliance_rate :=
                 if s.compliance_history.isEmpty then 100
                 else s.compliance_history.sum / (s.compliance_history.length : ℚ) } := by
    intro s hsq hsf
    simp only [getLatestStats, hsq, drainLatest]
    rw [if_pos hsf]
  refine ⟨hmain st hq hf, ?_, ?_⟩
  · simp only [getLatestStats, hq, drainLatest]
    rw [if_pos hf]
  · intro t1 hact
    have hstop : stopSession t1 st =
        { st with last_session_duration := t1 - st.start_time, session_active := false } := by
      unfold stopSession
      rw [if_pos hact]
    refine ⟨by rw [hstop], by rw [hstop], ?_⟩
    rw [hstop]
    have h3 := hmain
      { st with last_session_duration := t1 - st.start_time, session_active := false } hq hf
    simpa using h3

/-- A concrete state for the fallback witness: session started at
`t = 10`, three frames processed, cumulative totals 4 people and
2 violations, empty queue and history. -/
def statsDemoState : WebcamState :=
  { initWebcamState 10 with
      frame_count := 3
      total_people_detected := 4
      total_violations_detected := 2 }

/-- Witness for C10 at `now = 50`: the fallback snapshot carries the
session totals and the live duration `50 − 10`. -/
theorem C10_empty_queue_fallback_witness :
    (getLatestStats 50 statsDemoState).1 =
      some { frame_count := 3
             total_people := 0
             violations := 0
             compliance_rate := 100
             session_duration := 50 - 10
             total_people_session := 4
             total_violations_session := 2
             avg_compliance_rate := 100 } :=
  (C10_empty_queue_fallback 50 statsDemoState rfl (by decide)).1

/-- A DB oracle knowing one employee, alice. -/
def demoGetDb : String → Option Employee :=
  fun n => if n == "alice" then some ⟨"E1", "Ops"⟩ else none

/-- A store oracle whose writes always succeed. -/
def demoStore : String → StoreOutcome := fun _ => .ok

/-- An eligible recognition of alice at confidence 60. -/
def demoFace : FaceResult := ⟨some "alice", 60⟩

/-- C4. With the configuration of the source (`attendance_cooldown =
30`, effective cooldown `max(30, 30 // 2) = 30`), an observation inside
the cooldown window is skipped with no state change; and two eligible
recognitions of the same identity 2 s apart record exactly one event,
while 31 s apart they record two. -/
theorem C4_attendance_cooldown :
    (∀ (getDb : String → Option Employee) (store : String → StoreOutcome)
        (now : ℚ) (st : WebcamState) (face : FaceResult) (name : String),
      st.attendance_cooldown = 30 →
      face.recognized_person = some name →
      now - ((st.attendance_records.lookup name).getD 0) ≤ 30 →
      processFace getDb store now st face = st) ∧
    (processAttendance demoGetDb demoStore 100 (initWebcamState 0)
      [demoFace]).recent_detections.length = 1 ∧
    (processAttendance demoGetDb demoStore 102
      (processAttendance demoGetDb demoStore 100 (initWebcamState 0) [demoFace])
      [demoFace]).recent_detections.length = 1 ∧
    (processAttendance demoGetDb demoStore 131
      (processAttendance demoGetDb demoStore 100 (initWebcamState 0) [demoFace])
      [demoFace]).recent_detections.length = 2 := by
  refine ⟨?_, ?_, ?_, ?_⟩
  · intro getDb store now st face name hcd hface hwithin
    simp only [processFace, hface]
    by_cases hconf : 55 < face.recognition_confidence
    · rw [if_pos hconf, if_pos]
      rw [hcd]
      norm_num [nmax]
      linarith [hwithin]
    · rw [if_neg hconf]
  · norm_num [processAttendance, processFace, demoFace, demoGetDb, demoStore,
      initWebcamState, getEmployeeCached, dictInsert, nmax, List.lookup]
  · norm_num [processAttendance, processFace, demoFace, demoGetDb, demoStore,
      initWebcamState, getEmployeeCached, dictInsert, nmax, List.lookup]
  · norm_num [processAttendance, processFace, demoFace, demoGetDb, demoStore,
      initWebcamState, getEmployeeCached, dictInsert, nmax, List.lookup]

/-- A state in which alice was last recorded at `t = 100`. -/
def cooldownDemoState : WebcamState :=
  { initWebcamState 0 with attendance_records := [("alice", 100)] }

/-- Witness for C4: an eligible recognition of alice 2 s after her
last record is skipped with no state change. -/
theorem C4_attendance_cooldown_witness :
    processFace demoGetDb demoStore 102 cooldownDemoState demoFace = cooldownDemoState :=
  C4_attendance_cooldown.1 demoGetDb demoStore 102 cooldownDemoState demoFace "alice"
    rfl rfl (by norm_num [cooldownDemoState, initWebcamState, List.lookup])

/-- C8. For an eligible observation whose employee lookup succeeds: a
successful store write updates the per-identity record time, appends
the event to the recent-events buffer (trimmed FIFO to capacity 10) and
raises the `attendance_updated` flag; a failed or raising write leaves
the attendance map and the buffer untouched; and the consumer
poll-and-clear returns the flag and clears it. -/
theorem C8_attendance_write_effects (getDb : String → Option Employee)
    (store : String → StoreOutcome) (now : ℚ) (st st1 : WebcamState)
    (face : FaceResult) (name : String) (emp : Employee)
    (hface : face.recognized_person = some name)
    (hconf : 55 < face.recognition_confidence)
    (hcool : ((nmax 30 (st.attendance_cooldown / 2) : ℕ) : ℚ) <
      now - ((st.attendance_records.lookup name).getD 0))
    (hcache : getEmployeeCached getDb now st name = (some emp, st1)) :
    (store emp.employee_id = .ok →
      (processFace getDb store now st face).attendance_records.lookup name = some now ∧
      (processFace getDb store now st face).recent_detections =
        (if 10 < (st.recent_detections ++
            [({ name := name, employee_id := emp.employee_id
                department := emp.department, timestamp := now
                confidence := face.recognition_confidence
                status := "Present" } : AttendanceEvent)]).length then
          (st.recent_detections ++
            [({ name := name, employee_id := emp.employee_id
                department := emp.department, timestamp := now
                confidence := face.recognition_confidence
                status := "Present" } : AttendanceEvent)]).drop 1
        else
          st.recent_detections ++
            [({ name := name, employee_id := emp.employee_id
                department := emp.department, timestamp := now
                confidence := face.recognition_confidence
                status := "Present" } : AttendanceEvent)]) ∧
      (st.recent_detections.length ≤ 10 →
        (processFace getDb store now st face).recent_detections.length ≤ 10) ∧
      (processFace getDb store now st face).attendance_updated = true) ∧
    (store emp.employee_id = .failed →
      (processFace getDb store now st face).attendance_records = st.attendance_records ∧
      (processFace getDb store now st face).recent_detections = st.recent_detections) ∧
    (store emp.employee_id = .exn →
      (processFace getDb store now st face).attendance_records = st.attendance_records ∧
      (processFace getDb store now st face).recent_detections = st.recent_detections) ∧
    ((checkAndResetAttendanceUpdate st).1 = st.attendance_updated ∧
      (checkAndResetAttendanceUpdate st).2.attendance_updated = false) := by
  have hpres := getEmployeeCached_preserves getDb now st name
  rw [hcache] at hpres
  have hrec1 : st1.attendance_records = st.attendance_records := hpres.1
  have hrd1 : st1.recent_detections = st.recent_detections := hpres.2.1
  have hred : processFace getDb store now st face =
      (match store emp.employee_id with
       | .ok =>
         let st2 := { st1 with
           attendance_records := dictInsert st1.attendance_records name now }
         let recent := st2.recent_detections ++
           [({ name := name, employee_id := emp.employee_id
               department := emp.department, timestamp := now
               confidence := face.recognition_confidence
               status := "Present" } : AttendanceEvent)]
         { st2 with
             recent_detections := if 10 < recent.length then recent.drop 1 else recent
             attendance_updated := true }
       | .failed => st1
       | .exn => st1) := by
    simp only [processFace, hface]
    rw [if_pos hconf, if_neg (not_le.mpr hcool), hcache]
  refine ⟨?_, ?_, ?_, ?_⟩
  · intro hstore
    rw [hred, hstore]
    dsimp only
    rw [hrd1]
    refine ⟨dictInsert_lookup _ _ _, rfl, ?_, rfl⟩
    intro hlen
    by_cases hgt : 10 < (st.recent_detections ++
        [({ name := name, employee_id := emp.employee_id
            department := emp.department, timestamp := now
            confidence := face.recognition_confidence
            status := "Present" } : AttendanceEvent)]).length
    · rw [if_pos hgt, List.length_drop, List.length_append]
      simpa using hlen
    · rw [if_neg hgt]
      rw [List.length_append] at hgt ⊢
      simp at hgt ⊢
      omega
  · intro hstore
    rw [hred, hstore]
    exact ⟨hrec1, hrd1⟩
  · intro hstore
    rw [hred, hstore]
    exact ⟨hrec1, hrd1⟩
  · cases hupd : st.attendance_updated <;>
      simp [checkAndResetAttendanceUpdate, hupd]

/-- The post-lookup state of the C8 witness: alice cached. -/
def cacheDemoState : WebcamState :=
  { initWebcamState 0 with employee_cache := [("alice", ⟨"E1", "Ops"⟩)] }

/-- Witness for C8: processing an eligible alice recognition against
the always-succeeding store raises the update flag. -/
theorem C8_attendance_write_effects_witness :
    (processFace demoGetDb demoStore 100 (initWebcamState 0) demoFace).attendance_updated =
      true :=
  ((C8_attendance_write_effects demoGetDb demoStore 100 (initWebcamState 0)
      cacheDemoState demoFace "alice" ⟨"E1", "Ops"⟩ rfl
      (by norm_num [demoFace])
      (by norm_num [nmax, initWebcamState, List.lookup])
      (by norm_num [getEmployeeCached, initWebcamState, cacheDemoState, demoGetDb,
        List.lookup])).1 rfl).2.2.2

end PPE
